import Mathlib

/-!
Verification of the URL-submission validation and persistence contract of
the `url-summarization` repository.

The contract consists of
* a validation gate (`apps/web/server/api/routers/urlSummary.ts`, the Zod
  chain `z.string().url().refine(url => url.startsWith("https://"))`, and the
  identical `urlSchema` in `apps/web/app/page.tsx`), and
* a record store (`urlSummaryRouter.list` / `urlSummaryRouter.create`,
  Prisma over the `UrlSummary` table).

Zod's `url()` check accepts exactly the strings accepted by the WHATWG
`new URL(...)` constructor and leaves the value unchanged; the refine then
tests the literal JavaScript `String.prototype.startsWith("https://")` on
that unchanged string.  We model the WHATWG parser's acceptance behaviour
(`jsUrlValid`), the refine (`startsWithHttps`), the combined gate
(`validateUrl`), and the store (`createOp`, `listOp`).
-/

namespace UrlSummarization

/-! ### Character classes (WHATWG URL standard) -/

def isAsciiUpper (c : Char) : Bool := 'A' ≤ c && c ≤ 'Z'

def isAsciiLower (c : Char) : Bool := 'a' ≤ c && c ≤ 'z'

def isAsciiAlpha (c : Char) : Bool := isAsciiUpper c || isAsciiLower c

def isAsciiDigit (c : Char) : Bool := '0' ≤ c && c ≤ '9'

def isAsciiHexDigit (c : Char) : Bool :=
  isAsciiDigit c || ('a' ≤ c && c ≤ 'f') || ('A' ≤ c && c ≤ 'F')

/-- ASCII lowercasing, as the WHATWG scheme state applies to scheme characters. -/
def lowerChar (c : Char) : Char :=
  if isAsciiUpper c then Char.ofNat (c.toNat + 32) else c

/-- Characters allowed after the first character of a scheme:
ASCII alphanumeric, `+`, `-`, `.`. -/
def isSchemeChar (c : Char) : Bool :=
  isAsciiAlpha c || isAsciiDigit c || c = '+' || c = '-' || c = '.'

/-- C0 controls and U+0020 SPACE: stripped from both ends of the input. -/
def isC0OrSpace (c : Char) : Bool := c.toNat ≤ 0x20

/-- ASCII tab or newline: removed everywhere in the input. -/
def isTabOrNewline (c : Char) : Bool := c = '\t' || c = '\n' || c = '\r'

/-!
### Input preprocessing

The WHATWG basic URL parser first removes leading and trailing
C0-control-or-space characters, then removes all ASCII tab or newline
characters.
-/

def trimStart (l : List Char) : List Char := l.dropWhile isC0OrSpace

def trimEnd (l : List Char) : List Char := (l.reverse.dropWhile isC0OrSpace).reverse

def stripInput (l : List Char) : List Char :=
  (trimEnd (trimStart l)).filter (fun c => !isTabOrNewline c)

/-!
### Scheme parsing

The scheme is a leading ASCII alpha followed by scheme characters, terminated
by `:`; it is ASCII-lowercased while being read.  An input with no such
prefix (and no base URL, which is the situation of `new URL(s)` with one
argument) is rejected.
-/

def schemeLoop (acc : List Char) : List Char → Option (List Char × List Char)
  | [] => none
  | c :: cs =>
    if c = ':' then some (acc.reverse, cs)
    else if isSchemeChar c then schemeLoop (lowerChar c :: acc) cs
    else none

def parseScheme : List Char → Option (List Char × List Char)
  | [] => none
  | c :: cs => if isAsciiAlpha c then schemeLoop [lowerChar c] cs else none

/-- The special schemes of the WHATWG standard. -/
def specialScheme (sch : List Char) : Bool :=
  sch = "ftp".data || sch = "file".data || sch = "http".data ||
  sch = "https".data || sch = "ws".data || sch = "wss".data

/-! ### Authority and host -/

def isSlash (c : Char) : Bool := c = '/' || c = '\\'

def authorityEnd (c : Char) : Bool := c = '/' || c = '\\' || c = '?' || c = '#'

/-- After the scheme of a special (non-file) URL, the parser skips any run of
slashes and reads the authority up to the next `/`, `\`, `?` or `#`. -/
def takeAuthority (l : List Char) : List Char :=
  (l.dropWhile isSlash).takeWhile (fun c => !authorityEnd c)

/-- The host-and-port part of an authority: everything after the last `@`
(userinfo may itself contain `@`). -/
def hostPort (auth : List Char) : List Char :=
  (auth.reverse.takeWhile (fun c => c ≠ '@')).reverse

/-- Forbidden domain code points: C0 controls, space, DELETE, `%`, and the
forbidden host code points of the WHATWG standard. -/
def forbiddenHostChar (c : Char) : Bool :=
  isC0OrSpace c || c = '\x7f' || c = '%' || c = '#' || c = '/' || c = ':' ||
  c = '<' || c = '>' || c = '?' || c = '@' || c = '[' || c = '\\' ||
  c = ']' || c = '^' || c = '|'

def portToNat (ds : List Char) : Nat :=
  ds.foldl (fun n c => 10 * n + (c.toNat - '0'.toNat)) 0

/-- A port is empty or a run of ASCII digits denoting a number below 2^16. -/
def validPortPart : List Char → Bool
  | [] => true
  | ':' :: ds => ds.all isAsciiDigit && portToNat ds ≤ 65535
  | _ => false

/-- Acceptance of the host-and-port section of a special (non-file) URL:
a non-empty host free of forbidden code points, or a bracketed IPv6
literal, each followed by an optional valid port. -/
def hostPortOk (hp : List Char) : Bool :=
  match hp with
  | '[' :: rest =>
    let inside := rest.takeWhile (fun c => c ≠ ']')
    let after := rest.dropWhile (fun c => c ≠ ']')
    match after with
    | ']' :: tail =>
      !inside.isEmpty &&
      inside.all (fun c => isAsciiHexDigit c || c = ':' || c = '.') &&
      validPortPart tail
    | _ => false
  | _ =>
    let host := hp.takeWhile (fun c => c ≠ ':')
    let portPart := hp.dropWhile (fun c => c ≠ ':')
    !host.isEmpty && host.all (fun c => !forbiddenHostChar c) &&
    validPortPart portPart

/-- Modelled from the WHATWG basic URL parser (with no base URL), which is
what both the JavaScript `new URL(s)` constructor and Zod's `url()` format
check (which calls `new URL` and reports failure when it throws) decide:
whether the string `s` is a syntactically valid absolute URL.  Special
schemes other than `file` require an acceptable non-empty host; `file` URLs
and non-special schemes accept any remainder. -/
def jsUrlValid (s : String) : Bool :=
  let l := stripInput s.data
  match parseScheme l with
  | none => false
  | some (sch, rest) =>
    if specialScheme sch then
      if sch = "file".data then true
      else hostPortOk (hostPort (takeAuthority rest))
    else true

/-- The (normalized, lowercased) scheme of a string, when it parses as one. -/
def schemeOf (s : String) : Option String :=
  (parseScheme (stripInput s.data)).map fun p => String.mk p.1

/-- The refine of the Zod chain: JavaScript
`url.startsWith("https://")` on the unchanged input string. -/
def startsWithHttps (s : String) : Bool :=
  "https://".data.isPrefixOf s.data

/-! ### The validation gate -/

/-- The two rejection reasons of the gate: failure of the `url()` format
check ("Invalid URL"), and failure of the refine
("Only HTTPS URLs are allowed"). -/
inductive UrlError where
  | InvalidUrl : UrlError
  | SchemeNotAllowed : UrlError
deriving DecidableEq

/-- The server-side input schema of `urlSummaryRouter.create`
(`apps/web/server/api/routers/urlSummary.ts`):
`z.string().url().refine(url => url.startsWith("https://"))`.
The `url()` check runs first; the refine is tested on the unchanged string;
on success the original string is returned unchanged. -/
def validateUrl (s : String) : Except UrlError String :=
  if jsUrlValid s then
    if startsWithHttps s then .ok s
    else .error .SchemeNotAllowed
  else .error .InvalidUrl

/-- The client-side `urlSchema` of `apps/web/app/page.tsx`:
`z.string().url().refine(url => url.startsWith("https://"))`, transcribed
from that file. -/
def urlSchema (s : String) : Except UrlError String :=
  if jsUrlValid s then
    if startsWithHttps s then .ok s
    else .error .SchemeNotAllowed
  else .error .InvalidUrl

/-! ### The record store -/

/-- A row of the `UrlSummary` table: `id` (unique, generated), `url`
(required), `summary` (nullable), `createdAt` (set at creation),
`updatedAt` (set at creation; no update path exists). -/
structure UrlRecord where
  id : Nat
  url : String
  summary : Option String
  createdAt : Nat
  updatedAt : Nat
deriving DecidableEq

/-- The durable store: the rows of the table together with the id
generator. -/
structure Store where
  records : List UrlRecord
  nextId : Nat
deriving DecidableEq

def Store.empty : Store := ⟨[], 0⟩

/-- `ctx.prisma.urlSummary.create({ data: { url, summary } })`: generates a
fresh id, stamps `createdAt` and `updatedAt` with the current time, and
persists one new row. -/
def dbCreate (st : Store) (now : Nat) (url : String) (summary : Option String) :
    UrlRecord × Store :=
  let r : UrlRecord := ⟨st.nextId, url, summary, now, now⟩
  (r, ⟨r :: st.records, st.nextId + 1⟩)

/-- The ordering used by `orderBy: { createdAt: "desc" }`: `a` may come
before `b` when `b` was created no later than `a`. -/
def olderOrEq (a b : UrlRecord) : Prop := b.createdAt ≤ a.createdAt

instance : DecidableRel olderOrEq := fun a b => Nat.decLe b.createdAt a.createdAt

instance : IsTotal UrlRecord olderOrEq :=
  ⟨fun a b => Nat.le_total b.createdAt a.createdAt⟩

instance : IsTrans UrlRecord olderOrEq :=
  ⟨fun _ _ _ hab hbc => Nat.le_trans hbc hab⟩

/-- The query plan of `findMany({ orderBy: { createdAt: "desc" } })`:
a sort of the rows by `createdAt` descending (the model's store resolves
ties between equal `createdAt` values deterministically and consistently
across queries, as one fixed query plan does). -/
def dbSort (l : List UrlRecord) : List UrlRecord :=
  List.insertionSort olderOrEq l

/-- `urlSummaryRouter.list`: `findMany({ orderBy: { createdAt: "desc" },
take: 20 })` — the rows sorted newest-first, truncated to 20. -/
def listOp (st : Store) : List UrlRecord :=
  (dbSort st.records).take 20

/-- A `list` call as a request against the store: it returns the listing and
leaves the store unchanged (it is read-only). -/
def listCall (st : Store) : List UrlRecord × Store :=
  (listOp st, st)

/-- `urlSummaryRouter.create`: the input schema validates `url` (the
authoritative gate at the persistence boundary); only on success does the
mutation run `dbCreate` with the validated string and the optional
summary. -/
def createOp (st : Store) (now : Nat) (url : String) (summary : Option String) :
    Except UrlError (UrlRecord × Store) :=
  match validateUrl url with
  | .error e => .error e
  | .ok u => .ok (dbCreate st now u summary)

/-- The store states reachable through the public operations: the empty
store, closed under successful `create` calls (at arbitrary clock values)
and under `list` calls. -/
inductive Reachable : Store → Prop where
  | init : Reachable Store.empty
  | create {st : Store} {now : Nat} {url : String} {summary : Option String}
      {r : UrlRecord} {st' : Store} :
      Reachable st → createOp st now url summary = .ok (r, st') → Reachable st'
  | listed {st : Store} : Reachable st → Reachable (listCall st).2

/-! ### Helper lemmas -/

lemma isPrefixOf_exists_append {l1 l2 : List Char} (h : l1.isPrefixOf l2 = true) :
    ∃ t, l2 = l1 ++ t := by
  induction l1 generalizing l2 with
  | nil => exact ⟨l2, rfl⟩
  | cons a as ih =>
    cases l2 with
    | nil => simp [List.isPrefixOf] at h
    | cons b bs =>
      simp only [List.isPrefixOf, Bool.and_eq_true, beq_iff_eq] at h
      obtain ⟨t, ht⟩ := ih h.2
      exact ⟨t, by simp [h.1, ht]⟩

lemma dropWhile_append_cons (q : Char → Bool) (t r : List Char) (c : Char)
    (hc : q c = false) :
    List.dropWhile q (t ++ c :: r) = List.dropWhile q t ++ c :: r := by
  induction t with
  | nil => simp [List.dropWhile_cons, hc]
  | cons a t ih =>
    by_cases h : q a = true
    · simp [List.dropWhile_cons, h, ih]
    · simp [List.dropWhile_cons, h]

/-- Stripping the input of a string that begins with `https://` leaves that
prefix in place: only trailing junk and tabs or newlines after the prefix
can go away. -/
lemma stripInput_https_append (t : List Char) :
    ∃ t', stripInput ("https://".data ++ t) = "https://".data ++ t' := by
  have h1 : trimStart ("https://".data ++ t) = "https://".data ++ t := rfl
  have h2 : trimEnd ("https://".data ++ t) =
      "https://".data ++ (t.reverse.dropWhile isC0OrSpace).reverse := by
    unfold trimEnd
    rw [List.reverse_append]
    have hrev : "https://".data.reverse =
        '/' :: ('/' :: ':' :: 's' :: 'p' :: 't' :: 't' :: 'h' :: []) := rfl
    rw [hrev, dropWhile_append_cons isC0OrSpace t.reverse _ '/' rfl,
      List.reverse_append]
    rfl
  refine ⟨((t.reverse.dropWhile isC0OrSpace).reverse).filter
    (fun c => !isTabOrNewline c), ?_⟩
  unfold stripInput
  rw [h1, h2, List.filter_append]
  rfl

/-- A string accepted by the refine (it literally starts with `https://`)
parses with scheme exactly `https`. -/
lemma schemeOf_of_startsWithHttps {s : String}
    (h : startsWithHttps s = true) : schemeOf s = some "https" := by
  obtain ⟨t, ht⟩ := isPrefixOf_exists_append h
  obtain ⟨t', ht'⟩ := stripInput_https_append t
  unfold schemeOf
  rw [ht, ht']
  rfl

/-- Characterization of a successful run of the validation gate: the output
is the input unchanged, and the input is a valid URL that starts with the
literal prefix `https://`. -/
lemma validateUrl_ok {s u : String} (h : validateUrl s = .ok u) :
    u = s ∧ jsUrlValid s = true ∧ startsWithHttps s = true := by
  cases h1 : jsUrlValid s with
  | false => simp [validateUrl, h1] at h
  | true =>
    cases h2 : startsWithHttps s with
    | false => simp [validateUrl, h1, h2] at h
    | true =>
      simp only [validateUrl, h1, h2, if_true] at h
      exact ⟨(Except.ok.injEq _ _).mp h.symm, rfl, rfl⟩

/-- Characterization of a successful `create` call: the url passed the gate
unchanged, the returned record carries the submitted fields with a fresh id
and the call's timestamps, and the new store is the old one plus that
record. -/
lemma createOp_ok {st : Store} {now : Nat} {url : String}
    {summary : Option String} {r : UrlRecord} {st' : Store}
    (h : createOp st now url summary = .ok (r, st')) :
    validateUrl url = .ok url ∧
    r = ⟨st.nextId, url, summary, now, now⟩ ∧
    st' = ⟨r :: st.records, st.nextId + 1⟩ := by
  unfold createOp at h
  cases hv : validateUrl url with
  | error e => rw [hv] at h; exact absurd h (by simp)
  | ok u =>
    obtain ⟨hu, _, _⟩ := validateUrl_ok hv
    subst hu
    rw [hv] at h
    simp only [dbCreate, Except.ok.injEq, Prod.mk.injEq] at h
    refine ⟨rfl, h.1.symm, ?_⟩
    rw [← h.2, ← h.1]

/-! ### Claims about the validation gate -/

/-- C1: every record in any store state reachable through the public
`create` and `list` operations has a `url` that is a syntactically valid
absolute URL whose scheme is `https`: no sequence of calls can persist a
record with an invalid or non-HTTPS url, because the gate at the
persistence boundary runs on every `create`. -/
theorem reachable_records_valid_https (st : Store) (h : Reachable st) :
    ∀ r ∈ st.records, jsUrlValid r.url = true ∧ schemeOf r.url = some "https" := by
  induction h with
  | init => intro r hr; simp [Store.empty] at hr
  | create hst hok ih =>
    obtain ⟨hv, hr, hst'⟩ := createOp_ok hok
    intro x hx
    rw [hst'] at hx
    rcases List.mem_cons.mp hx with hx | hx
    · obtain ⟨-, hvalid, hhttps⟩ := validateUrl_ok hv
      subst hx; rw [hr]
      exact ⟨hvalid, schemeOf_of_startsWithHttps hhttps⟩
    · exact ih x hx
  | listed hst ih => exact ih

/-- C1 witness: a store reached by one successful `create` call from the
empty store; its record's url is a valid URL with scheme `https`. -/
theorem reachable_records_valid_https_witness :
    jsUrlValid "https://example.com" = true ∧
    schemeOf "https://example.com" = some "https" :=
  reachable_records_valid_https
    ⟨[⟨0, "https://example.com", none, 5, 5⟩], 1⟩
    (@Reachable.create Store.empty 5 "https://example.com" none
      ⟨0, "https://example.com", none, 5, 5⟩
      ⟨[⟨0, "https://example.com", none, 5, 5⟩], 1⟩
      Reachable.init rfl)
    ⟨0, "https://example.com", none, 5, 5⟩ (List.mem_singleton.mpr rfl)

/-- C2: the gate checks its rejection conditions in order with the first
failure winning: a syntactically invalid string fails with `InvalidUrl`; a
syntactically valid URL whose scheme is not `https` (and, more generally,
any valid URL failing the literal `https://` test) fails with
`SchemeNotAllowed`; the two reasons are distinct; and `SchemeNotAllowed` is
never produced for a syntactically invalid string. -/
theorem validateUrl_checks_in_order (s : String) :
    (jsUrlValid s = false → validateUrl s = .error .InvalidUrl) ∧
    (jsUrlValid s = true → schemeOf s ≠ some "https" →
      validateUrl s = .error .SchemeNotAllowed) ∧
    (jsUrlValid s = true → startsWithHttps s = false →
      validateUrl s = .error .SchemeNotAllowed) ∧
    UrlError.InvalidUrl ≠ UrlError.SchemeNotAllowed ∧
    (validateUrl s = .error .SchemeNotAllowed → jsUrlValid s = true) := by
  refine ⟨fun h1 => by simp [validateUrl, h1], ?_, ?_, by simp, ?_⟩
  · intro h1 h2
    have h3 : startsWithHttps s = false := by
      cases h : startsWithHttps s with
      | false => rfl
      | true => exact absurd (schemeOf_of_startsWithHttps h) h2
    simp [validateUrl, h1, h3]
  · intro h1 h2
    simp [validateUrl, h1, h2]
  · intro h
    cases h1 : jsUrlValid s with
    | true => rfl
    | false => simp [validateUrl, h1] at h

/-- C2 witness: a syntactically invalid string is rejected with
`InvalidUrl`; valid URLs failing the scheme condition are rejected with
`SchemeNotAllowed`. -/
theorem validateUrl_checks_in_order_witness :
    validateUrl "not-a-url" = .error .InvalidUrl ∧
    validateUrl "http://example.com" = .error .SchemeNotAllowed ∧
    validateUrl "https:example.com" = .error .SchemeNotAllowed :=
  ⟨(validateUrl_checks_in_order "not-a-url").1 rfl,
   (validateUrl_checks_in_order "http://example.com").2.1 rfl (by decide),
   (validateUrl_checks_in_order "https:example.com").2.2.1 rfl rfl⟩

/-- C3 counterexample: `https:example.com` is a syntactically valid absolute
URL (the WHATWG parser accepts it, normalizing it to
`https://example.com/`) and its scheme is `https`, yet the gate rejects it
with `SchemeNotAllowed`, because the refine tests the literal character
prefix `https://` rather than the parsed scheme. -/
theorem valid_https_url_rejected :
    jsUrlValid "https:example.com" = true ∧
    schemeOf "https:example.com" = some "https" ∧
    validateUrl "https:example.com" = .error .SchemeNotAllowed :=
  ⟨rfl, rfl, rfl⟩

/-- C3 amended: for every string that is a syntactically valid absolute URL
and begins with the literal lowercase prefix `https://` (a strictly
stronger condition than having scheme `https`), validation accepts it
unchanged, and a `create` call with it succeeds and persists a record whose
`url` equals the submitted string. -/
theorem validateUrl_accepts_https_unchanged (st : Store) (now : Nat)
    (s : String) (summary : Option String)
    (h1 : jsUrlValid s = true) (h2 : startsWithHttps s = true) :
    validateUrl s = .ok s ∧
    ∃ r st', createOp st now s summary = .ok (r, st') ∧
      r.url = s ∧ r ∈ st'.records := by
  have hv : validateUrl s = .ok s := by simp [validateUrl, h1, h2]
  refine ⟨hv, ⟨st.nextId, s, summary, now, now⟩,
    ⟨⟨st.nextId, s, summary, now, now⟩ :: st.records, st.nextId + 1⟩,
    ?_, rfl, ?_⟩
  · simp [createOp, hv, dbCreate]
  · exact List.mem_cons_self _ _

/-- C3 amended witness: `https://example.com` is accepted unchanged and a
`create` call with it succeeds. -/
theorem validateUrl_accepts_https_unchanged_witness :
    validateUrl "https://example.com" = .ok "https://example.com" ∧
    ∃ r st', createOp Store.empty 0 "https://example.com" none = .ok (r, st') ∧
      r.url = "https://example.com" ∧ r ∈ st'.records :=
  validateUrl_accepts_https_unchanged Store.empty 0 "https://example.com" none
    rfl rfl

/-- C4: the validation predicate applied by the interactive client
(`urlSchema` in `page.tsx`) and the one enforced at the persistence
boundary (the `create` input schema) are the same predicate: on every
input they agree on acceptance, on the accepted value, and on the
rejection reason. -/
theorem urlSchema_eq_validateUrl (s : String) : urlSchema s = validateUrl s := rfl

/-! ### Claims about the record store -/

/-- C5: for every store state, `list` returns at most 20 records, ordered by
`createdAt` descending, all drawn from the store, and they are the most
recently created ones: any stored record missing from the result was
created no later than every record that is in it. -/
theorem listOp_bounded_sorted_recent (st : Store) :
    (listOp st).length ≤ 20 ∧
    (listOp st).Sorted olderOrEq ∧
    (∀ x ∈ listOp st, x ∈ st.records) ∧
    (∀ r ∈ st.records, r ∉ listOp st →
      ∀ x ∈ listOp st, r.createdAt ≤ x.createdAt) := by
  have hpair : (dbSort st.records).Pairwise olderOrEq :=
    List.sorted_insertionSort olderOrEq st.records
  have hperm : List.Perm (dbSort st.records) st.records :=
    List.perm_insertionSort olderOrEq st.records
  refine ⟨List.length_take_le _ _, ?_, ?_, ?_⟩
  · exact List.Pairwise.sublist (List.take_sublist _ _) hpair
  · intro x hx
    exact hperm.mem_iff.mp (List.mem_of_mem_take hx)
  · intro r hr hnr x hx
    have hrL : r ∈ (dbSort st.records).take 20 ++ (dbSort st.records).drop 20 := by
      rw [List.take_append_drop]
      exact hperm.mem_iff.mpr hr
    have hpair2 : ((dbSort st.records).take 20 ++
        (dbSort st.records).drop 20).Pairwise olderOrEq := by
      rw [List.take_append_drop]
      exact hpair
    rcases List.mem_append.mp hrL with h | h
    · exact absurd h hnr
    · exact (List.pairwise_append.mp hpair2).2.2 x hx r h

/-- C5 witness: a store with 21 records (`createdAt` 0..20); `list` returns
at most 20 of them, and the record with `createdAt = 0` that is left out
was created no later than the one with `createdAt = 20` that is
returned. -/
theorem listOp_bounded_sorted_recent_witness :
    (listOp ⟨(List.range 21).map
        (fun i => ⟨i, "https://example.com", none, i, i⟩), 21⟩).length ≤ 20 ∧
    (⟨0, "https://example.com", none, 0, 0⟩ : UrlRecord).createdAt ≤
      (⟨20, "https://example.com", none, 20, 20⟩ : UrlRecord).createdAt :=
  ⟨(listOp_bounded_sorted_recent ⟨(List.range 21).map
      (fun i => ⟨i, "https://example.com", none, i, i⟩), 21⟩).1,
   (listOp_bounded_sorted_recent ⟨(List.range 21).map
      (fun i => ⟨i, "https://example.com", none, i, i⟩), 21⟩).2.2.2
     ⟨0, "https://example.com", none, 0, 0⟩ (by decide) (by decide)
     ⟨20, "https://example.com", none, 20, 20⟩ (by decide)⟩

/-- C6 counterexample: a store holding one record with `createdAt = 100`;
a `create` at clock value 50 succeeds, the store has only one record (fewer
than 20) created later than the new one, yet the following `list` puts the
older-but-timestamped-later record first, not the record just created. -/
theorem create_then_list_not_first :
    (((⟨[⟨0, "https://old.example", none, 100, 100⟩], 1⟩ : Store).records.filter
        (fun x => decide (50 < x.createdAt))).length < 20) ∧
    createOp ⟨[⟨0, "https://old.example", none, 100, 100⟩], 1⟩ 50
        "https://new.example" none =
      .ok (⟨1, "https://new.example", none, 50, 50⟩,
        ⟨[⟨1, "https://new.example", none, 50, 50⟩,
          ⟨0, "https://old.example", none, 100, 100⟩], 2⟩) ∧
    (listOp ⟨[⟨1, "https://new.example", none, 50, 50⟩,
          ⟨0, "https://old.example", none, 100, 100⟩], 2⟩).head? =
      some ⟨0, "https://old.example", none, 100, 100⟩ ∧
    (⟨0, "https://old.example", none, 100, 100⟩ : UrlRecord) ≠
      ⟨1, "https://new.example", none, 50, 50⟩ :=
  ⟨by decide, rfl, by decide, by decide⟩

/-- C6 amended: a successful `create` followed by a `list` (with no other
intervening inserts) returns the record just created as the first element,
provided no stored record has a `createdAt` later than the new record's
(ties are resolved in favour of the newer insertion by the store's query
plan). -/
theorem create_then_list_first (st : Store) (now : Nat) (url : String)
    (summary : Option String) (r : UrlRecord) (st' : Store)
    (hok : createOp st now url summary = .ok (r, st'))
    (hle : ∀ x ∈ st.records, x.createdAt ≤ now) :
    (listOp st').head? = some r := by
  obtain ⟨hv, hr, hst'⟩ := createOp_ok hok
  subst hst'
  have hrc : r.createdAt = now := by rw [hr]
  have hfront : List.orderedInsert olderOrEq r (dbSort st.records) =
      r :: dbSort st.records := by
    cases hD : dbSort st.records with
    | nil => rfl
    | cons b l =>
      have hb : b ∈ st.records := by
        have hbD : b ∈ dbSort st.records := by
          rw [hD]; exact List.mem_cons_self _ _
        exact (List.perm_insertionSort olderOrEq st.records).mem_iff.mp hbD
      have hrb : olderOrEq r b := by
        show b.createdAt ≤ r.createdAt
        rw [hrc]
        exact hle b hb
      simp [List.orderedInsert, hrb]
  show ((dbSort (r :: st.records)).take 20).head? = some r
  have hsort : dbSort (r :: st.records) =
      List.orderedInsert olderOrEq r (dbSort st.records) := rfl
  rw [hsort, hfront]
  rfl

/-- C6 amended witness: one record at time 1, a `create` at time 2: the
subsequent `list` has the new record first. -/
theorem create_then_list_first_witness :
    (listOp ⟨[⟨1, "https://b.example", none, 2, 2⟩,
      ⟨0, "https://a.example", none, 1, 1⟩], 2⟩).head? =
    some ⟨1, "https://b.example", none, 2, 2⟩ :=
  create_then_list_first ⟨[⟨0, "https://a.example", none, 1, 1⟩], 1⟩ 2
    "https://b.example" none ⟨1, "https://b.example", none, 2, 2⟩
    ⟨[⟨1, "https://b.example", none, 2, 2⟩,
      ⟨0, "https://a.example", none, 1, 1⟩], 2⟩
    rfl (by decide)

/-- C7: `list` is read-only and deterministic on the store state: two
successive `list` calls with no intervening `create` return the same
sequence (same records, same order), including when several records share
a `createdAt` value, since the store's one fixed query plan orders ties
consistently across queries. -/
theorem list_twice_same (st : Store) :
    (listCall st).2 = st ∧
    (listCall ((listCall st).2)).1 = (listCall st).1 :=
  ⟨rfl, rfl⟩

/-- C8: a `create` with a valid https URL and no summary succeeds and the
record's summary is null (`none`); a `create` with a valid https URL and a
summary string succeeds and the record's summary equals that string. -/
theorem create_summary_examples :
    (∃ r st', createOp Store.empty 1 "https://example.com/article" none =
        .ok (r, st') ∧
      r.url = "https://example.com/article" ∧ r.summary = none) ∧
    (∃ r st', createOp Store.empty 1 "https://example.com"
        (some "A test page") = .ok (r, st') ∧
      r.summary = some "A test page") :=
  ⟨⟨⟨0, "https://example.com/article", none, 1, 1⟩,
    ⟨[⟨0, "https://example.com/article", none, 1, 1⟩], 1⟩, rfl, rfl, rfl⟩,
   ⟨⟨0, "https://example.com", some "A test page", 1, 1⟩,
    ⟨[⟨0, "https://example.com", some "A test page", 1, 1⟩], 1⟩, rfl, rfl⟩⟩

/-- C9: the summary field accepts every string with no length or content
restriction and stores it verbatim: for any string `s` (including `""`),
`create` with a valid https url and summary `s` succeeds, the persisted
record's summary is `some s`, and a present-but-empty summary is
distinguishable from an absent one (`none`). -/
theorem create_summary_verbatim (st : Store) (now : Nat) (u s : String)
    (hu : validateUrl u = .ok u) :
    ∃ r st', createOp st now u (some s) = .ok (r, st') ∧
      r.summary = some s ∧ r ∈ st'.records ∧
      (some s : Option String) ≠ none := by
  refine ⟨⟨st.nextId, u, some s, now, now⟩,
    ⟨⟨st.nextId, u, some s, now, now⟩ :: st.records, st.nextId + 1⟩,
    ?_, rfl, ?_, ?_⟩
  · simp [createOp, hu, dbCreate]
  · exact List.mem_cons_self _ _
  · simp

/-- C9 witness: the empty summary string is persisted as `some ""`. -/
theorem create_summary_verbatim_witness :
    ∃ r st', createOp Store.empty 3 "https://example.com" (some "") =
        .ok (r, st') ∧
      r.summary = some "" ∧ r ∈ st'.records ∧
      (some "" : Option String) ≠ none :=
  create_summary_verbatim Store.empty 3 "https://example.com" "" rfl

/-- C10: there is no uniqueness constraint on `url`: creating the same
valid https URL twice succeeds both times, the two persisted records have
distinct ids, both carry that url, both are in the store, and the url
appears at least twice among the stored rows. -/
theorem create_same_url_twice (st : Store) (n1 n2 : Nat) (u : String)
    (s1 s2 : Option String) (hu : validateUrl u = .ok u) :
    ∃ r1 st1 r2 st2,
      createOp st n1 u s1 = .ok (r1, st1) ∧
      createOp st1 n2 u s2 = .ok (r2, st2) ∧
      r1.id ≠ r2.id ∧ r1.url = u ∧ r2.url = u ∧
      r1 ∈ st2.records ∧ r2 ∈ st2.records ∧
      2 ≤ st2.records.countP (fun x => x.url == u) := by
  refine ⟨⟨st.nextId, u, s1, n1, n1⟩,
    ⟨⟨st.nextId, u, s1, n1, n1⟩ :: st.records, st.nextId + 1⟩,
    ⟨st.nextId + 1, u, s2, n2, n2⟩,
    ⟨⟨st.nextId + 1, u, s2, n2, n2⟩ :: ⟨st.nextId, u, s1, n1, n1⟩ ::
      st.records, st.nextId + 2⟩,
    ?_, ?_, ?_, rfl, rfl, ?_, ?_, ?_⟩
  · simp [createOp, hu, dbCreate]
  · simp [createOp, hu, dbCreate]
  · exact Nat.ne_of_lt (Nat.lt_succ_self st.nextId)
  · exact List.mem_cons_of_mem _ (List.mem_cons_self _ _)
  · exact List.mem_cons_self _ _
  · show 2 ≤ List.countP (fun x => x.url == u)
      (⟨st.nextId + 1, u, s2, n2, n2⟩ :: ⟨st.nextId, u, s1, n1, n1⟩ ::
        st.records)
    simp only [List.countP_cons]
    simp

/-- C10 witness: creating `https://example.com` twice from the empty store
yields two records with distinct ids and the url stored twice. -/
theorem create_same_url_twice_witness :
    ∃ r1 st1 r2 st2,
      createOp Store.empty 1 "https://example.com" none = .ok (r1, st1) ∧
      createOp st1 2 "https://example.com" none = .ok (r2, st2) ∧
      r1.id ≠ r2.id ∧ r1.url = "https://example.com" ∧
      r2.url = "https://example.com" ∧
      r1 ∈ st2.records ∧ r2 ∈ st2.records ∧
      2 ≤ st2.records.countP (fun x => x.url == "https://example.com") :=
  create_same_url_twice Store.empty 1 2 "https://example.com" none none rfl

end UrlSummarization
